import Mathlib

/-!
Shallow embedding of the SCP Quality Automation System (`src/CSP.py`):
the retry/backoff transfer loop `SCPSigmaTransfer.secure_transfer` and the
statistical quality engine `SixSigmaAnalyzer` (`calculate_cpk`,
`control_chart`, `calculate_sigma_level`) together with
`generate_quality_report`.

Modelling conventions:
* Wall-clock time and durations are rationals; the external world of one
  `secure_transfer` call is an environment `ℕ → AttemptSpec` giving, for each
  attempt number, how long the local-hash and put phases take, whether the
  put raises, and whether the remote digest matches.
* Python's `time.sleep` calls are recorded in a `sleeps` list; the running
  clock is threaded through the loop.
* A Python function that falls off the end returns `None`; the loop's result
  is therefore an `Option Bool` (`none` = Python `None`).
* The statistics are over `ℝ`; `np.std` is the population (divide-by-N)
  standard deviation.  A float division whose denominator is exactly `0`
  produces an IEEE non-finite value in NumPy; such a result is modelled as
  `Option.none`.  `scipy.stats.norm.ppf` is modelled on `EReal` so that
  `ppf 1 = +∞` is representable, as in SciPy.
-/

/-- One appended transfer record, mirroring the `TransferMetrics` dataclass of
`src/CSP.py` (string timestamp replaced by the rational clock value at record
creation). -/
structure TransferMetrics where
  filename : String
  size_bytes : ℕ
  duration_sec : ℚ
  throughput_mbps : ℚ
  sha256_checksum : String
  timestamp : ℚ
deriving DecidableEq, Repr

/-- The observable behaviour of one attempt of the environment: phase
durations, whether `scp.put` succeeds, whether the remote digest matches the
local one, the local file's size and digest. -/
structure AttemptSpec where
  hashTime : ℚ
  putTime : ℚ
  putOk : Bool
  verifyTime : ℚ
  verifyOk : Bool
  fileSize : ℕ
  localHash : String
deriving DecidableEq, Repr

/-- State threaded through the retry loop of `secure_transfer`: the running
clock, the session's metrics list (`self.metrics`), the sleeps performed so
far, the number of loop iterations entered, and the returned value (`none`
while the loop is still running, and also when the loop exhausts without
executing a `return`, i.e. Python's implicit `None`). -/
structure TransferState where
  clock : ℚ
  metrics : List TransferMetrics
  sleeps : List ℚ
  attemptsMade : ℕ
  result : Option Bool
deriving DecidableEq, Repr

/-- Outcome of the body of one `try:` block of `secure_transfer`, before the
`except:` handler decides between returning `False` and sleeping. -/
inductive AttemptResult
  | success (record : TransferMetrics) (endClock : ℚ)
  | failure (endClock : ℚ)
deriving DecidableEq, Repr

/-- One iteration of the `try:` body of `secure_transfer` (lines 85-115 of
`src/CSP.py`), started at clock `t0`: take the start time, compute the local
sha256 (taking `hashTime`), call `scp.put` (taking `putTime`, raising if
`putOk` is false), measure `transfer_time`, optionally verify the remote
digest (raising `IntegrityError` if `verifyOk` is false), and on success build
the `TransferMetrics` record.  Note the source takes `start_time` BEFORE the
local hash is computed, so `transfer_time` includes the hashing phase. -/
def runAttempt (localPath : String) (verify : Bool) (a : AttemptSpec) (t0 : ℚ) :
    AttemptResult :=
  let tPut := t0 + a.hashTime + a.putTime
  if a.putOk then
    if verify && !a.verifyOk then
      AttemptResult.failure (tPut + a.verifyTime)
    else
      let tDone := if verify then tPut + a.verifyTime else tPut
      AttemptResult.success
        { filename := localPath
          size_bytes := a.fileSize
          duration_sec := tPut - t0
          throughput_mbps := (a.fileSize * 8 : ℚ) / ((tPut - t0) * 1000000)
          sha256_checksum := a.localHash
          timestamp := tDone } tDone
  else AttemptResult.failure tPut

/-- The `for attempt in range(1, retries + 1):` loop of `secure_transfer`.
`remaining + 1` is the number of loop iterations still to run, so the current
iteration is the last one (`attempt == retries`) exactly when `remaining = 0`.
On a failing non-final attempt the loop sleeps `2 ^ attempt` time units and
continues; on a failing final attempt it returns `false`; on a successful
attempt it appends the record and returns `true`; an exhausted loop (zero
iterations) leaves `result` as it was. -/
def transferGo (env : ℕ → AttemptSpec) (localPath : String) (verify : Bool) :
    ℕ → ℕ → TransferState → TransferState
  | _, 0, st => st
  | attempt, remaining + 1, st =>
    match runAttempt localPath verify (env attempt) st.clock with
    | AttemptResult.success r tDone =>
        { st with clock := tDone, metrics := st.metrics ++ [r],
                  attemptsMade := st.attemptsMade + 1, result := some true }
    | AttemptResult.failure tFail =>
        if remaining = 0 then
          { st with clock := tFail, attemptsMade := st.attemptsMade + 1,
                    result := some false }
        else
          transferGo env localPath verify (attempt + 1) remaining
            { st with clock := tFail + 2 ^ attempt,
                      sleeps := st.sleeps ++ [(2 : ℚ) ^ attempt],
                      attemptsMade := st.attemptsMade + 1 }

/-- The `secure_transfer` method of `SCPSigmaTransfer` (lines 65-121 of
`src/CSP.py`): run the attempt loop starting from attempt 1 with the session's
current metrics list.  `retries` is a Python `int`; `range(1, retries + 1)`
has `retries.toNat` iterations. -/
def secure_transfer (env : ℕ → AttemptSpec) (localPath : String) (verify : Bool)
    (retries : ℤ) (initMetrics : List TransferMetrics) : TransferState :=
  transferGo env localPath verify 1 retries.toNat
    { clock := 0, metrics := initMetrics, sleeps := [], attemptsMade := 0,
      result := none }

/-- An environment whose every attempt fails at the `put` step. -/
def envAllFail : ℕ → AttemptSpec :=
  fun _ => ⟨0, 1, false, 0, true, 100, "h"⟩

/-- An environment whose every attempt succeeds, with a hashing phase of 1
time unit and a put phase of 1 time unit. -/
def envHashPut : ℕ → AttemptSpec :=
  fun _ => ⟨1, 1, true, 0, true, 1000000, "h"⟩

example :
    (secure_transfer envAllFail "f" true 3 []).result = some false := by
  norm_num [secure_transfer, transferGo, runAttempt, envAllFail]

example :
    (secure_transfer envAllFail "f" true 3 []).sleeps = [2, 4] := by
  norm_num [secure_transfer, transferGo, runAttempt, envAllFail]

example :
    (secure_transfer envHashPut "f" true 3 []).metrics.map
      (fun r => r.duration_sec) = [2] := by
  norm_num [secure_transfer, transferGo, runAttempt, envHashPut]

example : (secure_transfer envAllFail "f" true 0 []).result = none := by
  norm_num [secure_transfer, transferGo]

/-- The loop leaves `result = none` untouched on failure-and-continue steps,
so after the loop `result` tells which `return` statement (if any) ran; the
metrics list grows by exactly the appended record of a successful attempt and
is untouched otherwise. -/
theorem transferGo_metrics_spec (env : ℕ → AttemptSpec) (lp : String) (v : Bool) :
    ∀ (remaining attempt : ℕ) (st : TransferState), st.result = none →
      (((transferGo env lp v attempt remaining st).result = some true →
          ∃ r, (transferGo env lp v attempt remaining st).metrics =
            st.metrics ++ [r]) ∧
        ((transferGo env lp v attempt remaining st).result = some false →
          (transferGo env lp v attempt remaining st).metrics = st.metrics) ∧
        ((transferGo env lp v attempt remaining st).result = none →
          (transferGo env lp v attempt remaining st).metrics = st.metrics)) := by
  intro remaining
  induction remaining with
  | zero =>
    intro attempt st hst
    simp only [transferGo]
    refine ⟨fun h => ?_, fun h => ?_, fun _ => trivial⟩
    · rw [hst] at h; exact absurd h (by simp)
    · rw [hst] at h; exact absurd h (by simp)
  | succ n ih =>
    intro attempt st hst
    simp only [transferGo]
    cases hra : runAttempt lp v (env attempt) st.clock with
    | success r tDone =>
      refine ⟨fun _ => ⟨r, rfl⟩, fun h => ?_, fun h => ?_⟩ <;> simp at h
    | failure tFail =>
      by_cases hn : n = 0
      · subst hn
        simp only [if_pos rfl]
        refine ⟨fun h => ?_, fun _ => rfl, fun h => ?_⟩ <;> simp at h
      · simp only [if_neg hn]
        have := ih (attempt + 1)
          { st with clock := tFail + 2 ^ attempt,
                    sleeps := st.sleeps ++ [(2 : ℚ) ^ attempt],
                    attemptsMade := st.attemptsMade + 1 } (by simpa using hst)
        simpa using this

/-- A `secure_transfer` call that returns `True` appended exactly one record
to the session metrics list, and one that returns `False` appended none. -/
theorem secure_transfer_append_spec (env : ℕ → AttemptSpec) (lp : String)
    (v : Bool) (retries : ℤ) (init : List TransferMetrics) :
    (((secure_transfer env lp v retries init).result = some true →
        ∃ r, (secure_transfer env lp v retries init).metrics = init ++ [r]) ∧
      ((secure_transfer env lp v retries init).result = some false →
        (secure_transfer env lp v retries init).metrics = init)) := by
  have h := transferGo_metrics_spec env lp v retries.toNat 1
    { clock := 0, metrics := init, sleeps := [], attemptsMade := 0,
      result := none } rfl
  exact ⟨h.1, h.2.1⟩

/-- When the put step of every attempt fails, a run of `r + 1` loop
iterations performs `r + 1` attempts, sleeps after each non-final attempt
(durations `2 ^ attempt, …, 2 ^ (attempt + r - 1)`), appends no record, and
returns `false`. -/
theorem transferGo_allFail (env : ℕ → AttemptSpec) (lp : String) (v : Bool)
    (hf : ∀ n, (env n).putOk = false) :
    ∀ (r attempt : ℕ) (st : TransferState),
      transferGo env lp v attempt (r + 1) st =
        { st with
            clock := (transferGo env lp v attempt (r + 1) st).clock,
            sleeps := st.sleeps ++
              (List.range' attempt r).map (fun k => (2 : ℚ) ^ k),
            attemptsMade := st.attemptsMade + (r + 1),
            result := some false } := by
  intro r
  induction r with
  | zero =>
    intro attempt st
    simp [transferGo, runAttempt, hf attempt]
  | succ n ih =>
    intro attempt st
    conv_lhs => rw [transferGo]
    simp only [runAttempt, hf attempt, Bool.false_eq_true, if_false,
      Nat.succ_ne_zero, if_neg (Nat.succ_ne_zero n)]
    rw [ih]
    have hr : (transferGo env lp v (attempt + 1) (n + 1)
        { st with
            clock := st.clock + (env attempt).hashTime +
              (env attempt).putTime + 2 ^ attempt,
            sleeps := st.sleeps ++ [(2 : ℚ) ^ attempt],
            attemptsMade := st.attemptsMade + 1 }).clock =
        (transferGo env lp v attempt (n + 1 + 1) st).clock := by
      conv_rhs => rw [transferGo]
      simp only [runAttempt, hf attempt, Bool.false_eq_true, if_false,
        if_neg (Nat.succ_ne_zero n)]
    rw [hr]
    simp only [TransferState.mk.injEq, List.append_assoc, List.range'_succ,
      List.map_cons, List.singleton_append, and_true, true_and]
    omega

/-- For `maxAttempts = N ≥ 1`, a permanently failing channel makes
`secure_transfer` perform exactly `N` attempts, sleep `N - 1` times with
durations `2 ^ 1, 2 ^ 2, …, 2 ^ (N - 1)`, append nothing, and return
`False`. -/
theorem secure_transfer_allFail (env : ℕ → AttemptSpec) (lp : String)
    (v : Bool) (retries : ℤ) (init : List TransferMetrics)
    (hf : ∀ n, (env n).putOk = false) (hr : 1 ≤ retries) :
    (secure_transfer env lp v retries init).result = some false ∧
      (secure_transfer env lp v retries init).metrics = init ∧
      (secure_transfer env lp v retries init).attemptsMade = retries.toNat ∧
      (secure_transfer env lp v retries init).sleeps =
        (List.range' 1 (retries.toNat - 1)).map (fun k => (2 : ℚ) ^ k) ∧
      (secure_transfer env lp v retries init).sleeps.length =
        retries.toNat - 1 := by
  obtain ⟨m, hm⟩ : ∃ m, retries.toNat = m + 1 := ⟨retries.toNat - 1, by omega⟩
  unfold secure_transfer
  rw [hm, transferGo_allFail env lp v hf]
  refine ⟨rfl, rfl, ?_, rfl, ?_⟩
  · show 0 + (m + 1) = m + 1
    omega
  · show ((List.range' 1 (m + 1 - 1)).map
      (fun k => (2 : ℚ) ^ k)).length = m + 1 - 1
    simp

/-- With `maxAttempts = 1` and a failing attempt, `secure_transfer` returns
`False` immediately with zero sleeps. -/
theorem secure_transfer_one_attempt_fail :
    (secure_transfer envAllFail "f" true 1 []).result = some false ∧
      (secure_transfer envAllFail "f" true 1 []).sleeps = [] ∧
      (secure_transfer envAllFail "f" true 1 []).attemptsMade = 1 := by
  norm_num [secure_transfer, transferGo, runAttempt, envAllFail]

/-- Inversion of a successful attempt: the put step succeeded, and the
record's measured duration is the hash phase plus the put phase (the source
takes `start_time` before hashing), with throughput derived from exactly that
duration. -/
theorem runAttempt_success_inv (lp : String) (v : Bool) (a : AttemptSpec)
    (t0 : ℚ) (r : TransferMetrics) (tDone : ℚ)
    (h : runAttempt lp v a t0 = AttemptResult.success r tDone) :
    a.putOk = true ∧ r.duration_sec = a.hashTime + a.putTime ∧
      r.size_bytes = a.fileSize ∧
      r.throughput_mbps =
        (r.size_bytes * 8 : ℚ) / (r.duration_sec * 1000000) := by
  have hdur : t0 + a.hashTime + a.putTime - t0 = a.hashTime + a.putTime := by
    ring
  simp only [runAttempt] at h
  split at h
  next hp =>
    split at h
    next => exact absurd h (by simp)
    next =>
      injection h with h1 h2
      subst h1
      exact ⟨hp, hdur, rfl, rfl⟩
  next hp => exact absurd h (by simp)

/-- When the loop returns `true` from a start state with `result = none`,
some attempt `k ≥ attempt` succeeded, exactly its record was appended, and
that record's duration and throughput are determined by attempt `k`'s phases
alone — earlier failed attempts and backoff sleeps contribute nothing. -/
theorem transferGo_success_record (env : ℕ → AttemptSpec) (lp : String)
    (v : Bool) :
    ∀ (remaining attempt : ℕ) (st : TransferState), st.result = none →
      (transferGo env lp v attempt remaining st).result = some true →
      ∃ k r, attempt ≤ k ∧ (env k).putOk = true ∧
        (transferGo env lp v attempt remaining st).metrics =
          st.metrics ++ [r] ∧
        r.duration_sec = (env k).hashTime + (env k).putTime ∧
        r.size_bytes = (env k).fileSize ∧
        r.throughput_mbps =
          (r.size_bytes * 8 : ℚ) / (r.duration_sec * 1000000) := by
  intro remaining
  induction remaining with
  | zero =>
    intro attempt st hst h
    simp only [transferGo] at h
    rw [hst] at h
    exact absurd h (by simp)
  | succ n ih =>
    intro attempt st hst h
    simp only [transferGo] at h ⊢
    revert h
    cases hra : runAttempt lp v (env attempt) st.clock with
    | success r0 tDone =>
      intro _
      obtain ⟨hp, hd, hs, ht⟩ := runAttempt_success_inv lp v _ _ _ _ hra
      exact ⟨attempt, r0, le_refl attempt, hp, rfl, hd, hs, ht⟩
    | failure tFail =>
      intro h
      by_cases hn : n = 0
      · subst hn
        simp only [if_pos rfl] at h
        exact absurd h (by simp)
      · simp only [if_neg hn] at h ⊢
        obtain ⟨k, r0, hk, hrest⟩ := ih (attempt + 1) _ (by simpa using hst) h
        exact ⟨k, r0, by omega, hrest⟩

/-- A run of at least one loop iteration always executes a `return`: the
final result is `some b` for some boolean `b`. -/
theorem transferGo_total (env : ℕ → AttemptSpec) (lp : String) (v : Bool) :
    ∀ (remaining : ℕ), 1 ≤ remaining → ∀ (attempt : ℕ) (st : TransferState),
      ∃ b, (transferGo env lp v attempt remaining st).result = some b := by
  intro remaining
  induction remaining with
  | zero => omega
  | succ n ih =>
    intro _ attempt st
    simp only [transferGo]
    cases runAttempt lp v (env attempt) st.clock with
    | success r0 tDone => exact ⟨true, rfl⟩
    | failure tFail =>
      by_cases hn : n = 0
      · subst hn
        exact ⟨false, by simp⟩
      · simp only [if_neg hn]
        exact ih (by omega) (attempt + 1) _

/-- Behaviour of `secure_transfer` when `retries ≤ 0`: `range(1, retries + 1)`
is empty, so the loop body never runs and the function falls off the end. -/
theorem secure_transfer_nonpos_retries (env : ℕ → AttemptSpec) (lp : String)
    (v : Bool) (retries : ℤ) (init : List TransferMetrics)
    (h : retries ≤ 0) :
    secure_transfer env lp v retries init =
      { clock := 0, metrics := init, sleeps := [], attemptsMade := 0,
        result := none } := by
  unfold secure_transfer
  rw [Int.toNat_eq_zero.mpr h]
  rfl

/-- C1: for every call to `secure_transfer` with `maxAttempts ≥ 1`, a `true`
result means exactly one `TransferMetrics` record was appended to the
session's list during the call, and a `false` result means the list is
unchanged. -/
theorem c1_append_exactly_one_on_success (env : ℕ → AttemptSpec)
    (lp : String) (v : Bool) (retries : ℤ) (init : List TransferMetrics)
    (_hretries : 1 ≤ retries) :
    (((secure_transfer env lp v retries init).result = some true →
        ∃ r, (secure_transfer env lp v retries init).metrics = init ++ [r]) ∧
      ((secure_transfer env lp v retries init).result = some false →
        (secure_transfer env lp v retries init).metrics = init)) :=
  secure_transfer_append_spec env lp v retries init

/-- Witness for C1 at a concrete successful call and a concrete failing
call. -/
theorem c1_append_exactly_one_on_success_witness :
    (∃ r, (secure_transfer envHashPut "f" true 3 []).metrics = [] ++ [r]) ∧
      (secure_transfer envAllFail "f" true 3 []).metrics = [] :=
  ⟨(c1_append_exactly_one_on_success envHashPut "f" true 3 [] (by norm_num)).1
      (by norm_num [secure_transfer, transferGo, runAttempt, envHashPut]),
    (c1_append_exactly_one_on_success envAllFail "f" true 3 [] (by norm_num)).2
      (by norm_num [secure_transfer, transferGo, runAttempt, envAllFail])⟩

/-- C2: for `maxAttempts = N ≥ 1` and a permanently failing channel,
`secure_transfer` performs exactly `N` attempts, sleeps `N − 1` times with
durations `2^1, 2^2, …, 2^(N−1)` (after attempts `1` through `N − 1`),
appends no record, and returns `false`; with `N = 1` there are zero
sleeps. -/
theorem c2_permanent_failure_backoff (env : ℕ → AttemptSpec) (lp : String)
    (v : Bool) (retries : ℤ) (init : List TransferMetrics)
    (hf : ∀ n, (env n).putOk = false) (hretries : 1 ≤ retries) :
    (secure_transfer env lp v retries init).result = some false ∧
      (secure_transfer env lp v retries init).metrics = init ∧
      (secure_transfer env lp v retries init).attemptsMade = retries.toNat ∧
      (secure_transfer env lp v retries init).sleeps =
        (List.range' 1 (retries.toNat - 1)).map (fun k => (2 : ℚ) ^ k) ∧
      (secure_transfer env lp v retries init).sleeps.length =
        retries.toNat - 1 :=
  secure_transfer_allFail env lp v retries init hf hretries

/-- Witness for C2: with three permanently failing attempts the call makes 3
attempts, sleeps twice (2 then 4 time units), and returns `false`; with one
attempt it returns `false` with zero sleeps. -/
theorem c2_permanent_failure_backoff_witness :
    ((secure_transfer envAllFail "f" true 3 []).result = some false ∧
        (secure_transfer envAllFail "f" true 3 []).sleeps =
          (List.range' 1 2).map (fun k => (2 : ℚ) ^ k)) ∧
      (secure_transfer envAllFail "f" true 1 []).sleeps.length = 0 := by
  have h3 := c2_permanent_failure_backoff envAllFail "f" true 3 []
    (fun n => rfl) (by norm_num)
  have h1 := c2_permanent_failure_backoff envAllFail "f" true 1 []
    (fun n => rfl) (by norm_num)
  exact ⟨⟨h3.1, h3.2.2.2.1⟩, h1.2.2.2.2⟩

/-- C4 counterexample: an environment whose first attempt succeeds after a
1-unit local-hash phase and a 1-unit put phase yields a record whose
`durationSeconds` is `2`, although the put operation alone took `1`: the
source takes `start_time` before computing the local digest, so the digest
phase is included in the measured duration, contradicting the claim that the
timer starts after the digest has been computed. -/
theorem c4_counterexample_duration_includes_hash :
    (secure_transfer envHashPut "f" true 3 []).metrics.map
        (fun r => r.duration_sec) = [2] ∧
      (envHashPut 1).putTime = 1 ∧ (2 : ℚ) ≠ 1 := by
  refine ⟨?_, rfl, by norm_num⟩
  norm_num [secure_transfer, transferGo, runAttempt, envHashPut]

/-- C4 (amended): on a successful transfer the appended record's
`durationSeconds` measures the successful attempt's local-digest phase plus
its put phase (the timer starts before the digest, not after), time spent on
earlier failed attempts and backoff sleeps is excluded, and the record's
`throughputMbps` equals `sizeBytes * 8 / (durationSeconds * 1_000_000)`. -/
theorem c4_duration_of_successful_attempt (env : ℕ → AttemptSpec)
    (lp : String) (v : Bool) (retries : ℤ) (init : List TransferMetrics)
    (h : (secure_transfer env lp v retries init).result = some true) :
    ∃ k r, 1 ≤ k ∧ (env k).putOk = true ∧
      (secure_transfer env lp v retries init).metrics = init ++ [r] ∧
      r.duration_sec = (env k).hashTime + (env k).putTime ∧
      r.size_bytes = (env k).fileSize ∧
      r.throughput_mbps = (r.size_bytes * 8 : ℚ) / (r.duration_sec * 1000000) :=
  transferGo_success_record env lp v retries.toNat 1
    { clock := 0, metrics := init, sleeps := [], attemptsMade := 0,
      result := none } rfl h

/-- Witness for C4 (amended) at a concrete successful call: the record's
duration is the hash phase plus the put phase of the successful attempt. -/
theorem c4_duration_of_successful_attempt_witness :
    ∃ k r, 1 ≤ k ∧ (envHashPut k).putOk = true ∧
      (secure_transfer envHashPut "f" true 3 []).metrics = [] ++ [r] ∧
      r.duration_sec = (envHashPut k).hashTime + (envHashPut k).putTime ∧
      r.size_bytes = (envHashPut k).fileSize ∧
      r.throughput_mbps =
        (r.size_bytes * 8 : ℚ) / (r.duration_sec * 1000000) :=
  c4_duration_of_successful_attempt envHashPut "f" true 3 []
    (by norm_num [secure_transfer, transferGo, runAttempt, envHashPut])

/-- C10: a call with `retries ≤ 0` never executes the loop body and returns
Python `None` (modelled as `Option.none`) instead of a boolean, appending no
record and making no attempt; the declared boolean return value is guaranteed
whenever `retries ≥ 1`. -/
theorem c10_nonpositive_retries_returns_none (env : ℕ → AttemptSpec)
    (lp : String) (v : Bool) (retries : ℤ) (init : List TransferMetrics) :
    (retries ≤ 0 →
        (secure_transfer env lp v retries init).result = none ∧
          (secure_transfer env lp v retries init).metrics = init ∧
          (secure_transfer env lp v retries init).attemptsMade = 0) ∧
      (1 ≤ retries →
        ∃ b, (secure_transfer env lp v retries init).result = some b) := by
  constructor
  · intro h
    rw [secure_transfer_nonpos_retries env lp v retries init h]
    exact ⟨rfl, rfl, rfl⟩
  · intro h
    exact transferGo_total env lp v retries.toNat (by omega) 1 _

/-- Witness for C10: at `retries = 0` the call returns `none`; at
`retries = 1` it returns a boolean. -/
theorem c10_nonpositive_retries_returns_none_witness :
    (secure_transfer envAllFail "f" true 0 []).result = none ∧
      ∃ b, (secure_transfer envAllFail "f" true 1 []).result = some b :=
  ⟨((c10_nonpositive_retries_returns_none envAllFail "f" true 0 []).1
      (by norm_num)).1,
    (c10_nonpositive_retries_returns_none envAllFail "f" true 1 []).2
      (by norm_num)⟩

/-- The `np.mean` of a sample list: sum divided by length (`np.mean` of an
empty list is NaN; the Lean value `0/0 = 0` is never relied upon, every use
is behind a length guard). -/
noncomputable def npMean (data : List ℝ) : ℝ := data.sum / data.length

/-- The population variance underlying `np.std`: mean of the squared
deviations from the mean (divide by `N`, not `N - 1`). -/
noncomputable def npVar (data : List ℝ) : ℝ :=
  ((data.map fun x => (x - npMean data) ^ 2).sum) / data.length

/-- The `np.std` population standard deviation. -/
noncomputable def npStd (data : List ℝ) : ℝ := Real.sqrt (npVar data)

/-- The `calculate_cpk` method of `SixSigmaAnalyzer` (lines 194-201 of
`src/CSP.py`): sentinel `0.0` for fewer than 2 samples, else
`min((usl-mean)/(3*std), (mean-lsl)/(3*std))`.  The source has no guard for
`std = 0`: NumPy float division by zero then yields an IEEE non-finite value
(`inf`/`-inf`/`nan`), which this embedding marks as `Option.none`; a finite
float result is `some`. -/
noncomputable def calculate_cpk (data : List ℝ) (usl lsl : ℝ) : Option ℝ :=
  if data.length < 2 then some 0
  else if npStd data = 0 then none
  else some (min ((usl - npMean data) / (3 * npStd data))
    ((npMean data - lsl) / (3 * npStd data)))

/-- The dictionary returned by `control_chart` when at least 2 samples
exist. -/
structure ControlChartLimits where
  upper_control_limit : ℝ
  lower_control_limit : ℝ
  mean : ℝ

/-- The `control_chart` method of `SixSigmaAnalyzer` (lines 203-214 of
`src/CSP.py`): the empty dict (`none`) for fewer than 2 samples, else the
3-sigma limits around the mean. -/
noncomputable def control_chart (data : List ℝ) : Option ControlChartLimits :=
  if data.length < 2 then none
  else some
    { upper_control_limit := npMean data + 3 * npStd data
      lower_control_limit := npMean data - 3 * npStd data
      mean := npMean data }

/-- The Gaussian integrand `exp(-t²/2)` of the standard normal
distribution. -/
noncomputable def gaussFun (t : ℝ) : ℝ := Real.exp (-t ^ 2 / 2)

/-- The standard normal cumulative distribution function. -/
noncomputable def normCdf (x : ℝ) : ℝ :=
  (∫ t in Set.Iic x, gaussFun t) / Real.sqrt (2 * Real.pi)

/-- The value of the standard normal quantile function at `q`, defined for
`q` in the open unit interval as the (unique) point where `normCdf` attains
`q`; junk value `0` outside. -/
noncomputable def probitAux (q : ℝ) : ℝ :=
  letI := Classical.propDecidable (∃ x, normCdf x = q)
  if h : ∃ x, normCdf x = q then h.choose else 0

/-- The `scipy.stats.norm.ppf` quantile function as used by the source:
`ppf 1 = +∞` and `ppf 0 = -∞` as in SciPy, finite inverse-CDF values on the
open unit interval.  (SciPy returns NaN outside `[0, 1]`; the source only
ever evaluates `ppf` on `(0, 1]`, so that corner is modelled by `⊥` without
consequence.) -/
noncomputable def ppf (q : ℝ) : EReal :=
  if q ≤ 0 then ⊥ else if 1 ≤ q then ⊤ else ((probitAux q : ℝ) : EReal)

/-- The defect counter of `calculate_sigma_level`:
`sum(1 for x in self.data if x < 10)` — a sample is a defect exactly when it
is strictly below the 10.0 threshold. -/
noncomputable def countDefects : List ℝ → ℕ
  | [] => 0
  | x :: xs => (if x < 10 then 1 else 0) + countDefects xs

/-- The defect rate `defects / len(self.data)` of `calculate_sigma_level`. -/
noncomputable def defectRate (data : List ℝ) : ℝ :=
  countDefects data / data.length

/-- The `calculate_sigma_level` method of `SixSigmaAnalyzer` (lines 216-228
of `src/CSP.py`): `0.0` for fewer than 2 samples, `0.0` when every sample is
a defect, and otherwise `ppf(1 - defect_rate) + 1.5` (with the value `+∞`
when the defect rate is `0`, as `scipy.stats.norm.ppf(1) = inf`). -/
noncomputable def calculate_sigma_level (data : List ℝ) : EReal :=
  if data.length < 2 then 0
  else if 1 ≤ defectRate data then 0
  else ppf (1 - defectRate data) + ((3 / 2 : ℝ) : EReal)

/-- The `throughput_stats` part of the quality report. -/
structure ThroughputStats where
  mean : ℝ
  std_dev : ℝ
  cpk : Option ℝ
  sigma_level : EReal

/-- The dictionary built by `generate_quality_report` when records exist. -/
structure QualityReport where
  throughput_stats : ThroughputStats
  transfer_metrics : List TransferMetrics

/-- The `generate_quality_report` method of `SCPSigmaTransfer` (lines 136-153
of `src/CSP.py`): the empty dict (`none`) when the throughput list is empty
(i.e. when there are zero records), else the populated report computed from
the session's metrics, with the example limits `(100, 10)` passed to
`calculate_cpk`. -/
noncomputable def generate_quality_report (ms : List TransferMetrics) :
    Option QualityReport :=
  let throughputs : List ℝ := ms.map fun m => (m.throughput_mbps : ℝ)
  if throughputs.isEmpty then none
  else some
    { throughput_stats :=
        { mean := npMean throughputs
          std_dev := npStd throughputs
          cpk := calculate_cpk throughputs 100 10
          sigma_level := calculate_sigma_level throughputs }
      transfer_metrics := ms }

/-- C7: `calculate_cpk` returns the sentinel `0.0` for fewer than 2 samples,
and for at least 2 samples with positive population standard deviation it
returns `min((usl − mean)/(3σ), (mean − lsl)/(3σ))` with σ the population
(divide-by-N) standard deviation. -/
theorem c7_cpk_sentinel_and_formula (data : List ℝ) (usl lsl : ℝ) :
    (data.length < 2 → calculate_cpk data usl lsl = some 0) ∧
      (2 ≤ data.length → 0 < npStd data →
        calculate_cpk data usl lsl =
          some (min ((usl - npMean data) / (3 * npStd data))
            ((npMean data - lsl) / (3 * npStd data)))) := by
  constructor
  · intro h
    rw [calculate_cpk, if_pos h]
  · intro h hs
    rw [calculate_cpk, if_neg (by omega), if_neg (ne_of_gt hs)]

/-- Witness for C7: `[1, 3]` has mean 2 and population σ = 1, so with limits
`usl = 100`, `lsl = 10` the capability index is
`min(98/3, -8/3) = -8/3`; and a single sample yields the sentinel. -/
theorem c7_cpk_sentinel_and_formula_witness :
    calculate_cpk [(1 : ℝ), 3] 100 10 = some (-8 / 3) ∧
      calculate_cpk [(1 : ℝ)] 100 10 = some 0 := by
  have hm : npMean [(1 : ℝ), 3] = 2 := by norm_num [npMean]
  have hv : npVar [(1 : ℝ), 3] = 1 := by norm_num [npVar, hm]
  have hs : npStd [(1 : ℝ), 3] = 1 := by rw [npStd, hv, Real.sqrt_one]
  constructor
  · have h := (c7_cpk_sentinel_and_formula [(1 : ℝ), 3] 100 10).2
      (by norm_num) (by rw [hs]; norm_num)
    rw [h, hm, hs]
    congr 1
    rw [min_eq_right (by norm_num)]
    norm_num
  · exact (c7_cpk_sentinel_and_formula [(1 : ℝ)] 100 10).1 (by norm_num)

/-- C8: `control_chart` returns the empty dict for fewer than 2 samples, and
for at least 2 samples the classic Shewhart limits: center `mean`, upper
`mean + 3σ`, lower `mean − 3σ`, with σ the population standard deviation. -/
theorem c8_control_chart_limits (data : List ℝ) :
    (data.length < 2 → control_chart data = none) ∧
      (2 ≤ data.length →
        control_chart data = some
          { upper_control_limit := npMean data + 3 * npStd data
            lower_control_limit := npMean data - 3 * npStd data
            mean := npMean data }) := by
  constructor
  · intro h
    rw [control_chart, if_pos h]
  · intro h
    rw [control_chart, if_neg (by omega)]

/-- Witness for C8: `[1, 3]` has mean 2 and population σ = 1, so the control
limits are `5 / -1 / 2`; and a single sample yields the empty result. -/
theorem c8_control_chart_limits_witness :
    control_chart [(1 : ℝ), 3] = some
        { upper_control_limit := 5, lower_control_limit := -1, mean := 2 } ∧
      control_chart [(1 : ℝ)] = none := by
  have hm : npMean [(1 : ℝ), 3] = 2 := by norm_num [npMean]
  have hv : npVar [(1 : ℝ), 3] = 1 := by norm_num [npVar, hm]
  have hs : npStd [(1 : ℝ), 3] = 1 := by rw [npStd, hv, Real.sqrt_one]
  constructor
  · rw [(c8_control_chart_limits [(1 : ℝ), 3]).2 (by norm_num), hm, hs]
    norm_num
  · exact (c8_control_chart_limits [(1 : ℝ)]).1 (by norm_num)

/-- C3 (division by zero in the source): for the constant sample list
`[5, 5]` the population standard deviation is `0`, and `calculate_cpk`
divides by it, producing an IEEE non-finite value (modelled `none`) for any
limits — not the value `0.0` that the specification prescribes for the σ = 0
case. -/
theorem c3_cpk_sigma_zero_divides_by_zero :
    npStd [(5 : ℝ), 5] = 0 ∧
      calculate_cpk [(5 : ℝ), 5] 100 10 = none ∧
      calculate_cpk [(5 : ℝ), 5] 100 10 ≠ some 0 := by
  have hm : npMean [(5 : ℝ), 5] = 5 := by norm_num [npMean]
  have hv : npVar [(5 : ℝ), 5] = 0 := by norm_num [npVar, hm]
  have hs : npStd [(5 : ℝ), 5] = 0 := by rw [npStd, hv, Real.sqrt_zero]
  have h : calculate_cpk [(5 : ℝ), 5] 100 10 = none := by
    rw [calculate_cpk, if_neg (by norm_num), if_pos hs]
  exact ⟨hs, h, by rw [h]; simp⟩

/-- A concrete session record: a 1,000,000-byte file transferred in 1 time
unit, giving 8 Mbps of throughput. -/
def m0 : TransferMetrics :=
  { filename := "file1", size_bytes := 1000000, duration_sec := 1,
    throughput_mbps := 8, sha256_checksum := "h", timestamp := 0 }

/-- C5 counterexample: with exactly one record (fewer than 2), the report is
NOT the empty dict — the source's guard `if not throughputs` only catches the
zero-record case, so a single-record session produces a populated report. -/
theorem c5_counterexample_one_record_not_empty :
    generate_quality_report [m0] ≠ none := by
  rw [generate_quality_report]
  simp

/-- C5 (amended): `generate_quality_report` returns the empty dict exactly
when zero records exist; with at least one record it returns the populated
report computed from the record list at the moment of computation (for a
single record the `cpk` and `sigma_level` entries are the fewer-than-2-samples
sentinels). -/
theorem c5_report_empty_iff_no_records (ms : List TransferMetrics) :
    (generate_quality_report ms = none ↔ ms = []) ∧
      (ms ≠ [] →
        generate_quality_report ms = some
          { throughput_stats :=
              { mean := npMean (ms.map fun m => (m.throughput_mbps : ℝ))
                std_dev := npStd (ms.map fun m => (m.throughput_mbps : ℝ))
                cpk := calculate_cpk
                  (ms.map fun m => (m.throughput_mbps : ℝ)) 100 10
                sigma_level := calculate_sigma_level
                  (ms.map fun m => (m.throughput_mbps : ℝ)) }
            transfer_metrics := ms }) := by
  constructor
  · constructor
    · intro h
      by_contra hne
      rw [generate_quality_report] at h
      simp only [List.isEmpty_eq_true, List.map_eq_nil_iff, hne, if_false] at h
      exact absurd h (by simp)
    · intro h
      subst h
      rfl
  · intro hne
    rw [generate_quality_report]
    simp only [List.isEmpty_eq_true, List.map_eq_nil_iff, hne, if_false]

/-- Witness for C5 (amended): the one-record session yields the populated
report with the sentinel statistics. -/
theorem c5_report_empty_iff_no_records_witness :
    generate_quality_report [m0] = some
      { throughput_stats :=
          { mean := 8, std_dev := 0, cpk := some 0, sigma_level := 0 }
        transfer_metrics := [m0] } := by
  have h := (c5_report_empty_iff_no_records [m0]).2 (by simp)
  rw [h]
  have hmap : ([m0].map fun m => (m.throughput_mbps : ℝ)) = [(8 : ℝ)] := by
    norm_num [m0]
  rw [hmap]
  have hm : npMean [(8 : ℝ)] = 8 := by norm_num [npMean]
  have hv : npVar [(8 : ℝ)] = 0 := by norm_num [npVar, hm]
  have hs : npStd [(8 : ℝ)] = 0 := by rw [npStd, hv, Real.sqrt_zero]
  have hcpk : calculate_cpk [(8 : ℝ)] 100 10 = some 0 := by
    rw [calculate_cpk, if_pos (by norm_num)]
  have hsl : calculate_sigma_level [(8 : ℝ)] = 0 := by
    rw [calculate_sigma_level, if_pos (by norm_num)]
  rw [hm, hs, hcpk, hsl]

/-- The Gaussian integrand is everywhere positive. -/
theorem gaussFun_pos (t : ℝ) : 0 < gaussFun t := Real.exp_pos _

/-- The Gaussian integrand is bounded by 1. -/
theorem gaussFun_le_one (x : ℝ) : gaussFun x ≤ 1 := by
  rw [gaussFun, Real.exp_le_one_iff]
  nlinarith [sq_nonneg x]

/-- The Gaussian integrand in the form used by Mathlib's Gaussian-integral
lemmas. -/
theorem gaussFun_eq : (fun x : ℝ => Real.exp (-(1 / 2) * x ^ 2)) = gaussFun := by
  funext t
  rw [gaussFun]
  congr 1
  ring

/-- The Gaussian integrand is integrable over the line. -/
theorem gaussFun_integrable : MeasureTheory.Integrable gaussFun := by
  have h := integrable_exp_neg_mul_sq (b := (1 : ℝ) / 2) (by norm_num)
  rwa [gaussFun_eq] at h

/-- The total Gaussian integral is `√(2π)`. -/
theorem gaussFun_integral : (∫ t : ℝ, gaussFun t) = Real.sqrt (2 * Real.pi) := by
  have h := integral_gaussian ((1 : ℝ) / 2)
  rw [gaussFun_eq] at h
  rw [h]
  congr 1
  rw [div_div_eq_mul_div, div_one, mul_comm]

/-- The normalizing constant `√(2π)` is positive. -/
theorem sqrt_two_pi_pos : 0 < Real.sqrt (2 * Real.pi) :=
  Real.sqrt_pos.mpr (by positivity)

/-- The CDF numerator over adjacent lower rays differs by an interval
integral. -/
theorem gauss_Iic_sub (x y : ℝ) :
    (∫ t in Set.Iic y, gaussFun t) - (∫ t in Set.Iic x, gaussFun t) =
      ∫ t in x..y, gaussFun t :=
  intervalIntegral.integral_Iic_sub_Iic gaussFun_integrable.integrableOn
    gaussFun_integrable.integrableOn

/-- The standard normal CDF is strictly monotone. -/
theorem normCdf_strictMono : StrictMono normCdf := by
  intro x y hxy
  have hpos : 0 < ∫ t in x..y, gaussFun t :=
    intervalIntegral.intervalIntegral_pos_of_pos
      gaussFun_integrable.intervalIntegrable gaussFun_pos hxy
  have hnum : (∫ t in Set.Iic x, gaussFun t) < ∫ t in Set.Iic y, gaussFun t := by
    have := gauss_Iic_sub x y
    linarith
  exact (div_lt_div_iff_of_pos_right sqrt_two_pi_pos).mpr hnum

/-- The standard normal CDF is continuous. -/
theorem normCdf_continuous : Continuous normCdf := by
  have h1 : Continuous fun x : ℝ => ∫ t in (0 : ℝ)..x, gaussFun t :=
    gaussFun_integrable.continuous_primitive 0
  have h2 : Continuous fun x : ℝ => ∫ t in Set.Iic x, gaussFun t := by
    have hconst : Continuous fun _ : ℝ => ∫ t in Set.Iic (0 : ℝ), gaussFun t :=
      continuous_const
    refine (hconst.add h1).congr fun x => ?_
    have := gauss_Iic_sub 0 x
    linarith
  exact h2.div_const _

/-- The CDF numerator tends to the total integral at `+∞`. -/
theorem gauss_tendsto_atTop :
    Filter.Tendsto (fun x : ℝ => ∫ t in Set.Iic x, gaussFun t) Filter.atTop
      (nhds (Real.sqrt (2 * Real.pi))) := by
  have hcov : MeasureTheory.AECover MeasureTheory.volume Filter.atTop
      (fun x : ℝ => Set.Iic x) := MeasureTheory.aecover_Iic Filter.tendsto_id
  have h := hcov.integral_tendsto_of_countably_generated gaussFun_integrable
  rwa [gaussFun_integral] at h

/-- The CDF numerator tends to `0` at `-∞`. -/
theorem gauss_tendsto_atBot :
    Filter.Tendsto (fun x : ℝ => ∫ t in Set.Iic x, gaussFun t) Filter.atBot
      (nhds 0) := by
  have hcov : MeasureTheory.AECover MeasureTheory.volume Filter.atBot
      (fun x : ℝ => Set.Ioi x) := MeasureTheory.aecover_Ioi Filter.tendsto_id
  have h1 := hcov.integral_tendsto_of_countably_generated gaussFun_integrable
  rw [gaussFun_integral] at h1
  have h2 : ∀ x : ℝ, (∫ t in Set.Iic x, gaussFun t) =
      Real.sqrt (2 * Real.pi) - ∫ t in Set.Ioi x, gaussFun t := by
    intro x
    have h3 := intervalIntegral.integral_Iic_add_Ioi (b := x)
      gaussFun_integrable.integrableOn gaussFun_integrable.integrableOn
    rw [gaussFun_integral] at h3
    linarith
  have h4 := (tendsto_const_nhds (x := Real.sqrt (2 * Real.pi))
    (f := Filter.atBot (α := ℝ))).sub h1
  rw [sub_self] at h4
  exact h4.congr fun x => (h2 x).symm

/-- The standard normal CDF tends to `1` at `+∞`. -/
theorem normCdf_tendsto_atTop :
    Filter.Tendsto normCdf Filter.atTop (nhds 1) := by
  have h := gauss_tendsto_atTop.div_const (Real.sqrt (2 * Real.pi))
  rwa [div_self (ne_of_gt sqrt_two_pi_pos)] at h

/-- The standard normal CDF tends to `0` at `-∞`. -/
theorem normCdf_tendsto_atBot :
    Filter.Tendsto normCdf Filter.atBot (nhds 0) := by
  have h := gauss_tendsto_atBot.div_const (Real.sqrt (2 * Real.pi))
  rwa [zero_div] at h

/-- Every value of the open unit interval is attained by the CDF. -/
theorem normCdf_surj {q : ℝ} (h0 : 0 < q) (h1 : q < 1) :
    ∃ x, normCdf x = q := by
  obtain ⟨a, ha⟩ := (normCdf_tendsto_atBot.eventually_lt_const h0).exists
  obtain ⟨b, hb⟩ := (normCdf_tendsto_atTop.eventually_const_lt h1).exists
  exact mem_range_of_exists_le_of_exists_ge normCdf_continuous
    ⟨a, ha.le⟩ ⟨b, hb.le⟩

/-- On the open unit interval, `probitAux` is a section of the CDF. -/
theorem normCdf_probitAux {q : ℝ} (h0 : 0 < q) (h1 : q < 1) :
    normCdf (probitAux q) = q := by
  rw [probitAux]
  have h := normCdf_surj h0 h1
  rw [dif_pos h]
  exact h.choose_spec

/-- The quantile function is monotone on the open unit interval. -/
theorem probitAux_le_probitAux {q1 q2 : ℝ} (h01 : 0 < q1) (h11 : q1 < 1)
    (h02 : 0 < q2) (h12 : q2 < 1) (h : q1 ≤ q2) :
    probitAux q1 ≤ probitAux q2 := by
  rw [← normCdf_strictMono.le_iff_le, normCdf_probitAux h01 h11,
    normCdf_probitAux h02 h12]
  exact h

/-- The Gaussian integrand is even. -/
theorem gaussFun_even (t : ℝ) : gaussFun (-t) = gaussFun t := by
  rw [gaussFun, gaussFun, neg_pow]
  norm_num

/-- Half of the Gaussian mass lies below `0`. -/
theorem gauss_Iic_zero :
    (∫ t in Set.Iic (0 : ℝ), gaussFun t) = Real.sqrt (2 * Real.pi) / 2 := by
  have h1 : (∫ t in Set.Iic (0 : ℝ), gaussFun t) =
      ∫ t in Set.Ioi (0 : ℝ), gaussFun t := by
    have h2 := integral_comp_neg_Iic (0 : ℝ) gaussFun
    simp only [gaussFun_even, neg_zero] at h2
    exact h2
  have h3 := intervalIntegral.integral_Iic_add_Ioi (b := (0 : ℝ))
    gaussFun_integrable.integrableOn gaussFun_integrable.integrableOn
  rw [gaussFun_integral] at h3
  linarith

/-- The CDF value at the origin is `1/2`. -/
theorem normCdf_zero : normCdf 0 = 1 / 2 := by
  have hc := ne_of_gt sqrt_two_pi_pos
  rw [normCdf, gauss_Iic_zero]
  field_simp
  ring

/-- Upper bound for a Gaussian interval integral by the interval length. -/
theorem gauss_int_le (a b : ℝ) (hab : a ≤ b) :
    (∫ t in a..b, gaussFun t) ≤ b - a := by
  have h := intervalIntegral.integral_mono_on hab
    gaussFun_integrable.intervalIntegrable intervalIntegrable_const
    (fun x _ => gaussFun_le_one x)
  rwa [intervalIntegral.integral_const, smul_eq_mul, mul_one] at h

/-- Lower bound for a Gaussian interval integral by a constant minorant. -/
theorem gauss_int_ge (a b m : ℝ) (hab : a ≤ b)
    (hm : ∀ x ∈ Set.Icc a b, m ≤ gaussFun x) :
    (b - a) * m ≤ ∫ t in a..b, gaussFun t := by
  have h := intervalIntegral.integral_mono_on hab intervalIntegrable_const
    gaussFun_integrable.intervalIntegrable hm
  rwa [intervalIntegral.integral_const, smul_eq_mul] at h

/-- Pointwise lower bound for the Gaussian integrand on `[-13/50, 0]`. -/
theorem gaussFun_ge_on_26 :
    ∀ x ∈ Set.Icc (-(13 / 50) : ℝ) 0, (4831 / 5000 : ℝ) ≤ gaussFun x := by
  intro x hx
  obtain ⟨hx1, hx2⟩ := hx
  have hsq : x ^ 2 ≤ (13 / 50) ^ 2 := sq_le_sq' (by linarith) (by linarith)
  have hexp := Real.add_one_le_exp (-x ^ 2 / 2)
  rw [gaussFun]
  nlinarith

/-- Numeric lower bound for the normalizing constant. -/
theorem sqrt_two_pi_gt : (5 / 2 : ℝ) < Real.sqrt (2 * Real.pi) := by
  rw [Real.lt_sqrt (by norm_num)]
  nlinarith [Real.pi_gt_d6]

/-- Numeric upper bound for the normalizing constant. -/
theorem sqrt_two_pi_lt : Real.sqrt (2 * Real.pi) < 251 / 100 := by
  rw [Real.sqrt_lt' (by norm_num)]
  nlinarith [Real.pi_lt_d2]

/-- The CDF at `-1/4` exceeds `2/5`. -/
theorem normCdf_neg_quarter_gt : (2 / 5 : ℝ) < normCdf (-(1 / 4)) := by
  have hsub := gauss_Iic_sub (-(1 / 4)) 0
  rw [gauss_Iic_zero] at hsub
  have hI := gauss_int_le (-(1 / 4)) 0 (by norm_num)
  rw [normCdf, lt_div_iff₀ sqrt_two_pi_pos]
  nlinarith [sqrt_two_pi_gt]

/-- The CDF at `-13/50` is below `2/5`. -/
theorem normCdf_neg_26_lt : normCdf (-(13 / 50)) < 2 / 5 := by
  have hsub := gauss_Iic_sub (-(13 / 50)) 0
  rw [gauss_Iic_zero] at hsub
  have hJ := gauss_int_ge (-(13 / 50)) 0 (4831 / 5000) (by norm_num)
    gaussFun_ge_on_26
  rw [normCdf, div_lt_iff₀ sqrt_two_pi_pos]
  nlinarith [sqrt_two_pi_lt]

/-- The standard normal quantile of `2/5` lies strictly between `-13/50` and
`-1/4` (numerically `Φ⁻¹(0.4) ≈ -0.2533`). -/
theorem probitAux_two_fifths_bounds :
    -(13 / 50) < probitAux (2 / 5) ∧ probitAux (2 / 5) < -(1 / 4) := by
  have hcdf : normCdf (probitAux (2 / 5)) = 2 / 5 :=
    normCdf_probitAux (by norm_num) (by norm_num)
  constructor
  · have h := normCdf_neg_26_lt
    rw [← hcdf] at h
    exact normCdf_strictMono.lt_iff_lt.mp h
  · have h := normCdf_neg_quarter_gt
    rw [← hcdf] at h
    exact normCdf_strictMono.lt_iff_lt.mp h

/-- On the open unit interval, `ppf` is the finite quantile. -/
theorem ppf_coe {q : ℝ} (h0 : 0 < q) (h1 : q < 1) :
    ppf q = ((probitAux q : ℝ) : EReal) := by
  rw [ppf, if_neg (by linarith), if_neg (by linarith)]

/-- As in SciPy, `ppf 1 = +∞`. -/
theorem ppf_one : ppf (1 : ℝ) = ⊤ := by
  rw [ppf, if_neg (by norm_num), if_pos le_rfl]

/-- The quantile function is monotone on the half-open unit interval
`(0, 1]`. -/
theorem ppf_mono {q1 q2 : ℝ} (h0 : 0 < q1) (hle : q1 ≤ q2) (_h2 : q2 ≤ 1) :
    ppf q1 ≤ ppf q2 := by
  by_cases hq2 : 1 ≤ q2
  · have htop : ppf q2 = ⊤ := by
      rw [ppf, if_neg (by linarith), if_pos hq2]
    rw [htop]
    exact le_top
  · have h21 : q2 < 1 := lt_of_not_le hq2
    rw [ppf_coe h0 (lt_of_le_of_lt hle h21),
      ppf_coe (lt_of_lt_of_le h0 hle) h21]
    exact EReal.coe_le_coe_iff.mpr
      (probitAux_le_probitAux h0 (lt_of_le_of_lt hle h21)
        (lt_of_lt_of_le h0 hle) h21 hle)

/-- The defect counter agrees with counting the samples strictly below 10. -/
theorem countDefects_eq_countP (data : List ℝ) :
    countDefects data = data.countP (fun x => decide (x < 10)) := by
  induction data with
  | nil => rfl
  | cons x xs ih =>
    rw [countDefects, List.countP_cons, ih]
    by_cases h : x < 10
    · simp [h, Nat.add_comm]
    · simp [h]

/-- The defect count never exceeds the sample count. -/
theorem countDefects_le_length (data : List ℝ) :
    countDefects data ≤ data.length := by
  induction data with
  | nil => exact le_refl 0
  | cons x xs ih =>
    rw [countDefects, List.length_cons]
    split
    · omega
    · omega

/-- The defect rate is nonnegative. -/
theorem defectRate_nonneg (data : List ℝ) : 0 ≤ defectRate data := by
  rw [defectRate]
  positivity

/-- C6: `calculate_sigma_level` counts a sample as a defect exactly when it
is strictly below the threshold `10.0`, returns `0.0` on at least 2 samples
when the defect rate is `≥ 1`, and otherwise returns
`Φ⁻¹(1 − defectRate) + 1.5`; in particular on `[5, 8, 12, 9, 11]` the defects
are `{5, 8, 9}` (count 3), the defect rate is `0.6`, and the sigma level is
`Φ⁻¹(0.4) + 1.5 ≈ 1.247` (the quantile `Φ⁻¹(0.4)` being pinned between
`-0.26` and `-0.25`, so the level lies in `(1.24, 1.25)`). -/
theorem c6_sigma_level_formula_and_scenario :
    (∀ data : List ℝ,
        countDefects data = data.countP (fun x => decide (x < 10))) ∧
      (∀ data : List ℝ, 2 ≤ data.length →
        (1 ≤ defectRate data → calculate_sigma_level data = 0) ∧
        (defectRate data < 1 → calculate_sigma_level data =
          ppf (1 - defectRate data) + ((3 / 2 : ℝ) : EReal))) ∧
      (countDefects [(5 : ℝ), 8, 12, 9, 11] = 3 ∧
        defectRate [(5 : ℝ), 8, 12, 9, 11] = 3 / 5 ∧
        calculate_sigma_level [(5 : ℝ), 8, 12, 9, 11] =
          ((probitAux (2 / 5) + 3 / 2 : ℝ) : EReal) ∧
        -(13 / 50) < probitAux (2 / 5) ∧ probitAux (2 / 5) < -(1 / 4)) := by
  have hcount : countDefects [(5 : ℝ), 8, 12, 9, 11] = 3 := by
    norm_num [countDefects]
  have hrate : defectRate [(5 : ℝ), 8, 12, 9, 11] = 3 / 5 := by
    rw [defectRate, hcount]
    norm_num
  refine ⟨countDefects_eq_countP, fun data h => ⟨fun h1 => ?_, fun h1 => ?_⟩,
    hcount, hrate, ?_, probitAux_two_fifths_bounds⟩
  · rw [calculate_sigma_level, if_neg (by omega), if_pos h1]
  · rw [calculate_sigma_level, if_neg (by omega), if_neg (by linarith)]
  · rw [calculate_sigma_level, if_neg (by norm_num), if_neg (by rw [hrate]; norm_num),
      hrate]
    have h1 : (1 : ℝ) - 3 / 5 = 2 / 5 := by norm_num
    rw [h1, ppf_coe (by norm_num) (by norm_num), ← EReal.coe_add]

/-- Witness for C6 at a concrete all-defect sample list: the defect rate is
`1` and the sigma level is the `0.0` sentinel. -/
theorem c6_sigma_level_formula_and_scenario_witness :
    calculate_sigma_level [(1 : ℝ), 1] = 0 :=
  (c6_sigma_level_formula_and_scenario.2.1 [(1 : ℝ), 1] (by norm_num)).1
    (by norm_num [defectRate, countDefects])

/-- C9: over defect rates in `[0, 1)` the sigma level is non-increasing in
the defect rate (for sample lists of at least 2 samples), and the `0.0`
sentinel branch is taken exactly at defect rate `1` — at any rate strictly
below `1` the returned value is instead the shifted quantile
`Φ⁻¹(1 − defectRate) + 1.5`. -/
theorem c9_sigma_level_antitone_in_defect_rate :
    (∀ d1 d2 : List ℝ, 2 ≤ d1.length → 2 ≤ d2.length →
        defectRate d1 ≤ defectRate d2 → defectRate d2 < 1 →
        calculate_sigma_level d2 ≤ calculate_sigma_level d1) ∧
      (∀ d : List ℝ, 2 ≤ d.length →
        (defectRate d = 1 → calculate_sigma_level d = 0) ∧
        (defectRate d < 1 → calculate_sigma_level d =
          ppf (1 - defectRate d) + ((3 / 2 : ℝ) : EReal))) := by
  constructor
  · intro d1 d2 h1 h2 hle hlt
    have hlt1 : defectRate d1 < 1 := lt_of_le_of_lt hle hlt
    have e1 : calculate_sigma_level d1 =
        ppf (1 - defectRate d1) + ((3 / 2 : ℝ) : EReal) := by
      rw [calculate_sigma_level, if_neg (by omega), if_neg (by linarith)]
    have e2 : calculate_sigma_level d2 =
        ppf (1 - defectRate d2) + ((3 / 2 : ℝ) : EReal) := by
      rw [calculate_sigma_level, if_neg (by omega), if_neg (by linarith)]
    rw [e1, e2]
    have hmono : ppf (1 - defectRate d2) ≤ ppf (1 - defectRate d1) :=
      ppf_mono (by linarith) (by linarith)
        (by linarith [defectRate_nonneg d1])
    exact add_le_add_right hmono _
  · intro d h
    constructor
    · intro h1
      rw [calculate_sigma_level, if_neg (by omega),
        if_pos (le_of_eq h1.symm)]
    · intro h1
      rw [calculate_sigma_level, if_neg (by omega), if_neg (by linarith)]

/-- Witness for C9 at two concrete sample lists: `[12, 12]` has defect rate
`0` and `[5, 12]` has defect rate `1/2`, so the sigma level of the second is
at most that of the first. -/
theorem c9_sigma_level_antitone_in_defect_rate_witness :
    calculate_sigma_level [(5 : ℝ), 12] ≤ calculate_sigma_level [(12 : ℝ), 12] :=
  c9_sigma_level_antitone_in_defect_rate.1 [(12 : ℝ), 12] [(5 : ℝ), 12]
    (by norm_num) (by norm_num)
    (by norm_num [defectRate, countDefects])
    (by norm_num [defectRate, countDefects])
